import Mathlib

/-!
Shallow embedding of the template-builder state model of the Streamlineer
frontend (`src/frontend/src/components/Dashboard/Dashboard.js`, the
`Template` component).

JavaScript arrays whose slots may hold `undefined` are modelled as
`List (Option α)`: a `none` entry is a JS `undefined` slot (this arises
when `arr.splice(i, 1)` is called with a stale out-of-bounds index and the
resulting `undefined` is re-inserted).  Array callbacks that read a
property of an element (`f.id`, `q.id`, ...) throw a `TypeError` when the
element is `undefined`; such operations are modelled as `Option`-valued
(`none` = exception, the state update does not commit).

`Date.now()` readings are passed to the handlers as explicit `Nat`
parameters, one per call of `Date.now()` in the source.
-/

namespace Streamlineer

/-- Direction argument of the up/down move handlers ('up' / 'down' in JS). -/
inductive Direction where
  | up
  | down
deriving DecidableEq

/-- Keys passed to `handleTitleFieldChange` at its call sites ('label', 'type'). -/
inductive FieldKey where
  | label
  | type
deriving DecidableEq

/-- Keys passed to `handleQuestionChange` at its call sites ('text', 'type'). -/
inductive QuestionKey where
  | text
  | type
deriving DecidableEq

/-- A title-page field descriptor: `{ id, label, type }`. -/
structure Field where
  id : Nat
  label : String
  type : String
deriving DecidableEq

/-- A question descriptor: `{ id, text, type }`. -/
structure Question where
  id : Nat
  text : String
  type : String
deriving DecidableEq

/-- A page: `{ id, title, questions }`.  Question slots may be `undefined`. -/
structure Page where
  id : Nat
  title : String
  questions : List (Option Question)
deriving DecidableEq

/-- The `draggedQuestion` state object `{ pageId, idx }`; both fields nullable. -/
structure DraggedQuestion where
  pageId : Option Nat
  idx : Option Nat
deriving DecidableEq

/-- The React state of the `Template` component. -/
structure TemplateState where
  templateTitle : String
  templateDescription : String
  templateImage : Option String
  titleFields : List (Option Field)
  pages : List Page
  draggedFieldIdx : Option Nat
  draggedQuestion : DraggedQuestion
deriving DecidableEq

/-- Models `arr.splice(n, 0, x)` on a JS array: inserts `x` at position `n`,
clamping `n` to the array length (a JS splice index past the end appends). -/
def spliceInsert (x : β) : Nat → List β → List β
  | 0, l => x :: l
  | _ + 1, [] => [x]
  | n + 1, y :: ys => y :: spliceInsert x n ys

/-- Models `arr.map(cb)` where the callback may throw: `none` aborts the map. -/
def mapThrow (f : β → Option γ) : List β → Option (List γ)
  | [] => some []
  | x :: xs =>
    match f x with
    | none => none
    | some y => (mapThrow f xs).map (fun ys => y :: ys)

/-- Models `arr.map(cb)` over possibly-`undefined` slots where the callback
reads a property of the element first (throwing on `undefined`) and returns a
live element. -/
def mapLive (g : α → α) : List (Option α) → Option (List (Option α))
  | [] => some []
  | none :: _ => none
  | some x :: xs => (mapLive g xs).map (fun ys => some (g x) :: ys)

/-- Models `arr.filter(cb)` over possibly-`undefined` slots where the callback
reads a property of the element (throwing on `undefined`). -/
def filterLive (pred : α → Bool) : List (Option α) → Option (List (Option α))
  | [] => some []
  | none :: _ => none
  | some x :: xs =>
    (filterLive pred xs).map (fun ys => if pred x then some x :: ys else ys)

/-- Models `arr.findIndex(cb)` (JS result -1 becomes `none`). -/
def jsFindIndex (pred : β → Bool) : List β → Option Nat
  | [] => none
  | x :: xs => if pred x then some 0 else (jsFindIndex pred xs).map (· + 1)

/-- Shared body of `moveTitleField` and `moveQuestion` (Dashboard.js lines
88-95 and 164-170): compute the neighbour index, return the list unchanged if
it is out of bounds, else `splice(idx, 1)` out the element (an out-of-bounds
`idx` yields `undefined`) and `splice(newIdx, 0, removed)` it back in. -/
def stepMove (l : List (Option α)) (idx : Nat) (dir : Direction) : List (Option α) :=
  let newIdx : Int :=
    match dir with
    | .up => (idx : Int) - 1
    | .down => (idx : Int) + 1
  if newIdx < 0 ∨ (l.length : Int) ≤ newIdx then l
  else spliceInsert ((l.get? idx).join) newIdx.toNat (l.eraseIdx idx)

/-- Body of `movePage` after `findIndex` (Dashboard.js lines 128-135); `idx`
always comes from a successful `findIndex`, so the element at `idx` is live
and the `none` fallback branch is unreachable. -/
def stepMoveAt (l : List β) (idx : Nat) (dir : Direction) : List β :=
  let newIdx : Int :=
    match dir with
    | .up => (idx : Int) - 1
    | .down => (idx : Int) + 1
  if newIdx < 0 ∨ (l.length : Int) ≤ newIdx then l
  else
    match l.get? idx with
    | some x => spliceInsert x newIdx.toNat (l.eraseIdx idx)
    | none => l

/-- Shared splice body of the two drop handlers (Dashboard.js lines 102-107
and 180-183): `splice(src, 1)` out the element (an out-of-bounds `src` yields
`undefined`) and `splice(tgt, 0, removed)` it back in. -/
def dragSplice (l : List (Option α)) (src tgt : Nat) : List (Option α) :=
  spliceInsert ((l.get? src).join) tgt (l.eraseIdx src)

/-- List-level logic of `handleTitleFieldDrop` (Dashboard.js lines 100-109):
no-op when no drag is in progress or the captured source equals the target. -/
def dragReorder (l : List (Option α)) (src : Option Nat) (tgt : Nat) : List (Option α) :=
  match src with
  | none => l
  | some s => if s = tgt then l else dragSplice l s tgt

/-- Field update performed by `handleTitleFieldChange`: `{ ...f, [key]: value }`. -/
def setFieldEntry (key : FieldKey) (value : String) (f : Field) : Field :=
  match key with
  | .label => { f with label := value }
  | .type => { f with type := value }

/-- Question update performed by `handleQuestionChange`: `{ ...q, [key]: value }`. -/
def setQuestionEntry (key : QuestionKey) (value : String) (q : Question) : Question :=
  match key with
  | .text => { q with text := value }
  | .type => { q with type := value }

/-- Mirrors `handleTitleFieldChange(id, key, value)` (line 77-79). -/
def handleTitleFieldChange (id : Nat) (key : FieldKey) (value : String)
    (s : TemplateState) : Option TemplateState :=
  (mapLive (fun f => if f.id = id then setFieldEntry key value f else f) s.titleFields).map
    (fun tf => { s with titleFields := tf })

/-- Mirrors `addTitleField()` (line 80-82); `now` is the `Date.now()` reading. -/
def addTitleField (now : Nat) (s : TemplateState) : TemplateState :=
  { s with titleFields := s.titleFields ++ [some { id := now, label := "", type := "site" }] }

/-- Mirrors `removeTitleField(id)` (line 83-85): unconditional filter, no
minimum-size guard. -/
def removeTitleField (id : Nat) (s : TemplateState) : Option TemplateState :=
  (filterLive (fun f => f.id != id) s.titleFields).map
    (fun tf => { s with titleFields := tf })

/-- Mirrors `moveTitleField(idx, direction)` (line 87-96). -/
def moveTitleField (idx : Nat) (dir : Direction) (s : TemplateState) : TemplateState :=
  { s with titleFields := stepMove s.titleFields idx dir }

/-- Mirrors `handleTitleFieldDragStart(idx)` (line 98). -/
def handleTitleFieldDragStart (idx : Nat) (s : TemplateState) : TemplateState :=
  { s with draggedFieldIdx := some idx }

/-- Mirrors `handleTitleFieldDrop(idx)` (line 100-109): returns early when no
drag is in progress or the captured index equals the drop index (without
clearing the drag state); otherwise splices and clears the drag state. -/
def handleTitleFieldDrop (idx : Nat) (s : TemplateState) : TemplateState :=
  match s.draggedFieldIdx with
  | none => s
  | some src =>
    if src = idx then s
    else { s with titleFields := dragSplice s.titleFields src idx, draggedFieldIdx := none }

/-- Mirrors `addPage()` (line 112-118); `t1` and `t2` are the readings of the
two `Date.now()` calls (page id and question id base). -/
def addPage (t1 t2 : Nat) (s : TemplateState) : TemplateState :=
  { s with
    pages := s.pages ++
      [{ id := t1, title := "Untitled Page",
         questions := [some { id := t2 + 1, text := "", type := "yesno" }] }] }

/-- Mirrors `removePage(id)` (line 119-121): guarded by `pgs.length > 1`. -/
def removePage (id : Nat) (s : TemplateState) : TemplateState :=
  { s with
    pages := if s.pages.length > 1 then s.pages.filter (fun p => p.id != id) else s.pages }

/-- Mirrors `handlePageTitleChange(id, value)` (line 122-124). -/
def handlePageTitleChange (id : Nat) (value : String) (s : TemplateState) : TemplateState :=
  { s with pages := s.pages.map (fun p => if p.id = id then { p with title := value } else p) }

/-- Mirrors `movePage(id, direction)` (line 126-137): `findIndex` by id, then
the shared step-move splice body. -/
def movePage (id : Nat) (dir : Direction) (s : TemplateState) : TemplateState :=
  match jsFindIndex (fun p => p.id == id) s.pages with
  | none => s
  | some idx => { s with pages := stepMoveAt s.pages idx dir }

/-- Mirrors `addQuestion(pageId)` (line 140-146); `now` is the `Date.now()`
reading. -/
def addQuestion (pageId now : Nat) (s : TemplateState) : TemplateState :=
  { s with
    pages := s.pages.map (fun p =>
      if p.id = pageId then
        { p with questions := p.questions ++ [some { id := now, text := "", type := "yesno" }] }
      else p) }

/-- Per-page transform applied by `removeQuestion` (line 148-152): guarded by
`p.questions.length > 1`; the filter reads `q.id` and therefore throws when a
question slot is `undefined`. -/
def removeQuestionFromPage (pageId qid : Nat) (p : Page) : Option Page :=
  if p.id = pageId then
    if p.questions.length > 1 then
      (filterLive (fun q => q.id != qid) p.questions).map (fun qs => { p with questions := qs })
    else some p
  else some p

/-- Mirrors `removeQuestion(pageId, qid)` (line 147-153). -/
def removeQuestion (pageId qid : Nat) (s : TemplateState) : Option TemplateState :=
  (mapThrow (removeQuestionFromPage pageId qid) s.pages).map
    (fun pgs => { s with pages := pgs })

/-- Mirrors `handleQuestionChange(pageId, qid, key, value)` (line 154-160). -/
def handleQuestionChange (pageId qid : Nat) (key : QuestionKey) (value : String)
    (s : TemplateState) : Option TemplateState :=
  (mapThrow (fun p =>
      if p.id = pageId then
        (mapLive (fun q => if q.id = qid then setQuestionEntry key value q else q)
            p.questions).map
          (fun qs => { p with questions := qs })
      else some p) s.pages).map
    (fun pgs => { s with pages := pgs })

/-- Mirrors `moveQuestion(pageId, idx, direction)` (line 162-172). -/
def moveQuestion (pageId idx : Nat) (dir : Direction) (s : TemplateState) : TemplateState :=
  { s with
    pages := s.pages.map (fun p =>
      if p.id = pageId then { p with questions := stepMove p.questions idx dir } else p) }

/-- Mirrors `handleQuestionDragStart(pageId, idx)` (line 174). -/
def handleQuestionDragStart (pageId idx : Nat) (s : TemplateState) : TemplateState :=
  { s with draggedQuestion := { pageId := some pageId, idx := some idx } }

/-- Mirrors `handleQuestionDrop(pageId, idx)` (line 176-186): returns early
only when the captured page id or index is null; otherwise splices the drop
target page's question list with the captured index (note: the captured page
id is not compared against the drop page id) and clears the drag state. -/
def handleQuestionDrop (pageId idx : Nat) (s : TemplateState) : TemplateState :=
  match s.draggedQuestion.pageId, s.draggedQuestion.idx with
  | some _, some src =>
    { s with
      pages := s.pages.map (fun p =>
        if p.id = pageId then { p with questions := dragSplice p.questions src idx } else p),
      draggedQuestion := { pageId := none, idx := none } }
  | _, _ => s

/-- The initial React state of the `Template` component (lines 43-64). -/
def initialState : TemplateState :=
  { templateTitle := "Untitled template"
    templateDescription := ""
    templateImage := none
    titleFields :=
      [some { id := 1, label := "Site conducte", type := "site" },
       some { id := 2, label := "Conducted on", type := "date" },
       some { id := 3, label := "Prepared by", type := "person" },
       some { id := 4, label := "Location", type := "location" }]
    pages := [{ id := 1, title := "Untitled Page",
                questions := [some { id := 1, text := "", type := "yesno" }] }]
    draggedFieldIdx := none
    draggedQuestion := { pageId := none, idx := none } }

/-! Positional helper lemmas about the JS array primitives. -/

theorem eraseIdx_append_cons (l₁ : List β) (a : β) (l₂ : List β) :
    (l₁ ++ a :: l₂).eraseIdx l₁.length = l₁ ++ l₂ := by
  induction l₁ with
  | nil => rfl
  | cons y ys ih => simpa [List.eraseIdx] using ih

theorem spliceInsert_append (x : β) (l₁ l₂ : List β) :
    spliceInsert x l₁.length (l₁ ++ l₂) = l₁ ++ x :: l₂ := by
  induction l₁ with
  | nil => rfl
  | cons y ys ih => simpa [spliceInsert] using ih

theorem get?_append_cons (l₁ : List β) (a : β) (l₂ : List β) :
    (l₁ ++ a :: l₂).get? l₁.length = some a := by
  induction l₁ with
  | nil => rfl
  | cons y ys ih => simpa using ih

theorem spliceInsert_perm (x : β) (n : Nat) (l : List β) :
    List.Perm (spliceInsert x n l) (x :: l) := by
  induction n generalizing l with
  | zero => exact List.Perm.refl _
  | succ m ih =>
    cases l with
    | nil => exact List.Perm.refl _
    | cons y ys => exact (List.Perm.cons y (ih ys)).trans (List.Perm.swap x y ys)

theorem get?_spliceInsert_self (x : β) (n : Nat) (l : List β) (h : n ≤ l.length) :
    (spliceInsert x n l).get? n = some x := by
  induction n generalizing l with
  | zero => rfl
  | succ m ih =>
    cases l with
    | nil => exact absurd h (by simp)
    | cons y ys => simpa [spliceInsert] using ih ys (Nat.le_of_succ_le_succ h)

theorem exists_split_at (l : List β) (i : Nat) (h : i < l.length) :
    ∃ l₁ v l₂, l = l₁ ++ v :: l₂ ∧ l₁.length = i := by
  induction l generalizing i with
  | nil => exact absurd h (by simp)
  | cons x xs ih =>
    cases i with
    | zero => exact ⟨[], x, xs, rfl, rfl⟩
    | succ j =>
      obtain ⟨l₁, v, l₂, hsplit, hlen⟩ := ih j (Nat.lt_of_succ_lt_succ h)
      exact ⟨x :: l₁, v, l₂, by simp [hsplit], by simp [hlen]⟩

theorem exists_split_at2 (l : List β) (i : Nat) (h : i + 1 < l.length) :
    ∃ l₁ a b l₂, l = l₁ ++ a :: b :: l₂ ∧ l₁.length = i := by
  induction l generalizing i with
  | nil => exact absurd h (by simp)
  | cons x xs ih =>
    cases i with
    | zero =>
      cases xs with
      | nil => exact absurd h (by simp)
      | cons y ys => exact ⟨[], x, y, ys, rfl, rfl⟩
    | succ j =>
      obtain ⟨l₁, a, b, l₂, hsplit, hlen⟩ := ih j (Nat.lt_of_succ_lt_succ h)
      exact ⟨x :: l₁, a, b, l₂, by simp [hsplit], by simp [hlen]⟩

/-! Swap characterizations of the step-move splice. -/

theorem stepMove_up_zero (l : List (Option α)) : stepMove l 0 .up = l := by
  simp [stepMove]

theorem stepMove_down_last (l : List (Option α)) (i : Nat) (h : l.length ≤ i + 1) :
    stepMove l i .down = l := by
  simp only [stepMove]
  rw [if_pos]
  right
  omega

theorem stepMove_up_swap (l₁ : List (Option α)) (a b : Option α) (l₂ : List (Option α)) :
    stepMove (l₁ ++ a :: b :: l₂) (l₁.length + 1) .up = l₁ ++ b :: a :: l₂ := by
  have hsplit : l₁ ++ a :: b :: l₂ = (l₁ ++ [a]) ++ b :: l₂ := by simp
  have hlen1 : (l₁ ++ [a]).length = l₁.length + 1 := by simp
  simp only [stepMove]
  rw [if_neg (by simp [List.length_append]; omega)]
  have hget : ((l₁ ++ a :: b :: l₂).get? (l₁.length + 1)) = some b := by
    rw [hsplit, ← hlen1]
    exact get?_append_cons _ _ _
  have herase : (l₁ ++ a :: b :: l₂).eraseIdx (l₁.length + 1) = l₁ ++ a :: l₂ := by
    rw [hsplit, ← hlen1, eraseIdx_append_cons]
    simp
  have htn : (((l₁.length + 1 : Nat) : Int) - 1).toNat = l₁.length := by omega
  rw [hget, herase, htn]
  simpa using spliceInsert_append b l₁ (a :: l₂)

theorem stepMove_down_swap (l₁ : List (Option α)) (a b : Option α) (l₂ : List (Option α)) :
    stepMove (l₁ ++ a :: b :: l₂) l₁.length .down = l₁ ++ b :: a :: l₂ := by
  have hlen1 : (l₁ ++ [b]).length = l₁.length + 1 := by simp
  simp only [stepMove]
  rw [if_neg (by simp [List.length_append]; omega)]
  have hget : ((l₁ ++ a :: b :: l₂).get? l₁.length) = some a := get?_append_cons _ _ _
  have herase : (l₁ ++ a :: b :: l₂).eraseIdx l₁.length = l₁ ++ b :: l₂ :=
    eraseIdx_append_cons _ _ _
  have htn : (((l₁.length : Nat) : Int) + 1).toNat = l₁.length + 1 := by omega
  rw [hget, herase, htn]
  have hj : (some a).join = a := rfl
  rw [hj]
  have h2 : l₁ ++ b :: l₂ = (l₁ ++ [b]) ++ l₂ := by simp
  rw [h2, ← hlen1, spliceInsert_append]
  simp

theorem stepMoveAt_up_swap (l₁ : List β) (a b : β) (l₂ : List β) :
    stepMoveAt (l₁ ++ a :: b :: l₂) (l₁.length + 1) .up = l₁ ++ b :: a :: l₂ := by
  have hsplit : l₁ ++ a :: b :: l₂ = (l₁ ++ [a]) ++ b :: l₂ := by simp
  have hlen1 : (l₁ ++ [a]).length = l₁.length + 1 := by simp
  simp only [stepMoveAt]
  rw [if_neg (by simp [List.length_append]; omega)]
  have hget : ((l₁ ++ a :: b :: l₂).get? (l₁.length + 1)) = some b := by
    rw [hsplit, ← hlen1]
    exact get?_append_cons _ _ _
  have herase : (l₁ ++ a :: b :: l₂).eraseIdx (l₁.length + 1) = l₁ ++ a :: l₂ := by
    rw [hsplit, ← hlen1, eraseIdx_append_cons]
    simp
  have htn : (((l₁.length + 1 : Nat) : Int) - 1).toNat = l₁.length := by omega
  rw [hget, herase, htn]
  simpa using spliceInsert_append b l₁ (a :: l₂)

theorem stepMoveAt_down_swap (l₁ : List β) (a b : β) (l₂ : List β) :
    stepMoveAt (l₁ ++ a :: b :: l₂) l₁.length .down = l₁ ++ b :: a :: l₂ := by
  have hlen1 : (l₁ ++ [b]).length = l₁.length + 1 := by simp
  simp only [stepMoveAt]
  rw [if_neg (by simp [List.length_append]; omega)]
  have hget : ((l₁ ++ a :: b :: l₂).get? l₁.length) = some a := get?_append_cons _ _ _
  have herase : (l₁ ++ a :: b :: l₂).eraseIdx l₁.length = l₁ ++ b :: l₂ :=
    eraseIdx_append_cons _ _ _
  have htn : (((l₁.length : Nat) : Int) + 1).toNat = l₁.length + 1 := by omega
  rw [hget, herase, htn]
  calc spliceInsert a (l₁.length + 1) (l₁ ++ b :: l₂)
      = spliceInsert a (l₁ ++ [b]).length ((l₁ ++ [b]) ++ l₂) := by rw [hlen1]; simp
    _ = (l₁ ++ [b]) ++ a :: l₂ := spliceInsert_append a (l₁ ++ [b]) l₂
    _ = l₁ ++ b :: a :: l₂ := by simp

theorem stepMoveAt_up_zero (l : List β) : stepMoveAt l 0 .up = l := by
  simp [stepMoveAt]

theorem stepMoveAt_down_last (l : List β) (i : Nat) (h : l.length ≤ i + 1) :
    stepMoveAt l i .down = l := by
  simp only [stepMoveAt]
  rw [if_pos]
  right
  omega

/-! Drag-splice lemmas. -/

theorem dragSplice_self (l : List (Option α)) (s : Nat) (h : s < l.length) :
    dragSplice l s s = l := by
  obtain ⟨l₁, v, l₂, hsplit, hlen⟩ := exists_split_at l s h
  subst hsplit
  subst hlen
  have hj : ((l₁ ++ v :: l₂).get? l₁.length).join = v := by
    rw [get?_append_cons]
    rfl
  simp only [dragSplice, hj, eraseIdx_append_cons]
  exact spliceInsert_append v l₁ l₂

theorem dragSplice_perm (l : List (Option α)) (s t : Nat) (h : s < l.length) :
    List.Perm (dragSplice l s t) l := by
  obtain ⟨l₁, v, l₂, hsplit, hlen⟩ := exists_split_at l s h
  subst hsplit
  subst hlen
  have hj : ((l₁ ++ v :: l₂).get? l₁.length).join = v := by
    rw [get?_append_cons]
    rfl
  simp only [dragSplice, hj, eraseIdx_append_cons]
  exact (spliceInsert_perm v t (l₁ ++ l₂)).trans List.perm_middle.symm

theorem dragSplice_get (l : List (Option α)) (s t : Nat)
    (hs : s < l.length) (ht : t < l.length) :
    (dragSplice l s t).get? t = l.get? s := by
  obtain ⟨l₁, v, l₂, hsplit, hlen⟩ := exists_split_at l s hs
  subst hsplit
  subst hlen
  have hj : ((l₁ ++ v :: l₂).get? l₁.length).join = v := by
    rw [get?_append_cons]
    rfl
  have hb : t ≤ (l₁ ++ l₂).length := by
    simp only [List.length_append, List.length_cons] at ht ⊢
    omega
  simp only [dragSplice, hj, eraseIdx_append_cons]
  rw [get?_spliceInsert_self _ _ _ hb, get?_append_cons]

/-! Traversal lemmas for the throwing map/filter. -/

theorem mapThrow_id (f : β → Option β) (l : List β) (h : ∀ x ∈ l, f x = some x) :
    mapThrow f l = some l := by
  induction l with
  | nil => rfl
  | cons x xs ih =>
    simp only [mapThrow, h x (by simp)]
    rw [ih (fun y hy => h y (by simp [hy]))]
    rfl

theorem mapThrow_eq_some (f : β → Option γ) (l : List β) (l' : List γ)
    (h : mapThrow f l = some l') :
    l'.length = l.length ∧
      ∀ i x, l.get? i = some x → ∃ y, f x = some y ∧ l'.get? i = some y := by
  induction l generalizing l' with
  | nil =>
    simp only [mapThrow, Option.some.injEq] at h
    subst h
    exact ⟨rfl, by intro i x hx; simp at hx⟩
  | cons a as ih =>
    simp only [mapThrow] at h
    cases hfa : f a with
    | none => rw [hfa] at h; exact absurd h (by simp)
    | some y =>
      rw [hfa] at h
      cases hrest : mapThrow f as with
      | none => rw [hrest] at h; exact absurd h (by simp)
      | some ys =>
        rw [hrest] at h
        obtain rfl : y :: ys = l' := by simpa using h
        obtain ⟨hlen, hpt⟩ := ih ys hrest
        refine ⟨by simp [hlen], ?_⟩
        intro i x hx
        cases i with
        | zero =>
          obtain rfl : a = x := by simpa using hx
          exact ⟨y, hfa, rfl⟩
        | succ j => exact hpt j x hx

theorem mapLive_map_some (g : α → α) (l : List α) :
    mapLive g (l.map some) = some ((l.map g).map some) := by
  induction l with
  | nil => rfl
  | cons x xs ih => simp [mapLive, ih]

theorem filterLive_map_some (pred : α → Bool) (l : List α) :
    filterLive pred (l.map some) = some ((l.filter pred).map some) := by
  induction l with
  | nil => rfl
  | cons x xs ih =>
    simp only [List.map, filterLive, ih, Option.map_some, Option.some.injEq, List.filter]
    cases hp : pred x <;> simp

theorem jsFindIndex_append_cons (pred : β → Bool) (l₁ : List β) (x : β) (l₂ : List β)
    (h₁ : ∀ y ∈ l₁, pred y = false) (hx : pred x = true) :
    jsFindIndex pred (l₁ ++ x :: l₂) = some l₁.length := by
  induction l₁ with
  | nil => simp [jsFindIndex, hx]
  | cons y ys ih =>
    have hy : pred y = false := h₁ y (by simp)
    have hrec := ih (fun z hz => h₁ z (by simp [hz]))
    simp [jsFindIndex, hy, hrec]

theorem length_filter_not_countP (l : List γ) (pr : γ → Bool) :
    (l.filter (fun x => !pr x)).length + l.countP pr = l.length := by
  induction l with
  | nil => rfl
  | cons x xs ih =>
    cases hx : pr x <;> simp [List.filter_cons, List.countP_cons, hx] <;> omega

/-! Claim theorems. -/

/-- Claim C1: the spec states that a drop event whose captured source index is
stale (out of bounds because the collection mutated mid-drag) cancels the
reorder and leaves the collection unchanged.  The code applies the splice
anyway: after starting a drag on title-field index 3 and removing field 4
mid-drag (leaving 3 fields), a drop on index 0 splices with the stale index 3,
re-inserting the `undefined` that `splice(3, 1)` produced — the field list
grows from 3 live fields to 4 slots with an undefined slot in front, instead
of being left unchanged. -/
theorem claim_C1_stale_drop_corrupts :
    ((removeTitleField 4 (handleTitleFieldDragStart 3 initialState)).map
        (handleTitleFieldDrop 0)).map
      (fun s => s.titleFields.map (Option.map (fun f => f.id))) =
      some [none, some 1, some 2, some 3] ∧
    (removeTitleField 4 (handleTitleFieldDragStart 3 initialState)).map
      (fun s => s.titleFields.map (Option.map (fun f => f.id))) =
      some [some 1, some 2, some 3] := by
  exact ⟨by decide, by decide⟩

/-- Claim C5: the spec claims every operation sequence keeps every page's
question list non-empty.  `Date.now()`-based ids break the guard in
`removeQuestion`: `addPage` at clock 100 creates page 100 with question id
101; `addQuestion` on page 100 at clock 101 appends a second question with
the same id 101; `removeQuestion(100, 101)` then passes the `length > 1`
guard but filters out both questions, leaving page 100 with an empty question
list. -/
theorem claim_C5_empty_page_reachable :
    (removeQuestion 100 101 (addQuestion 100 101 (addPage 100 100 initialState))).map
      (fun s => s.pages.map (fun p => p.questions.length)) = some [1, 0] := by
  decide

/-- Claim C8: the spec claims a drop delivered on page B never applies a drag
started on page A to B's question list.  `handleQuestionDrop` only checks the
captured state for null and never compares the captured page id with the drop
page id: with page 1 holding questions [1, 7] and page 100 holding [101, 8],
a drag started on page 1 at index 1 followed by a drop on page 100 at index 0
reorders page 100's questions from [101, 8] to [8, 101]. -/
theorem claim_C8_cross_page_drop_mutates :
    ((handleQuestionDrop 100 0
        (handleQuestionDragStart 1 1
          (addQuestion 100 8 (addQuestion 1 7 (addPage 100 100 initialState))))).pages.map
      (fun p => p.questions.map (Option.map (fun q => q.id))) =
      [[some 1, some 7], [some 8, some 101]]) ∧
    ((handleQuestionDragStart 1 1
        (addQuestion 100 8 (addQuestion 1 7 (addPage 100 100 initialState)))).pages.map
      (fun p => p.questions.map (Option.map (fun q => q.id))) =
      [[some 1, some 7], [some 101, some 8]]) := by
  exact ⟨by decide, by decide⟩

/-- Claim C9: the spec claims every insert assigns a fresh id that collides
with no id ever used in the collection's history.  Ids are `Date.now()`
readings: two `addTitleField` calls within the same millisecond (both reading
5) append two fields that share id 5, so the second assigned id collides with
a live id and the id list is not pairwise distinct. -/
theorem claim_C9_id_collision :
    (addTitleField 5 (addTitleField 5 initialState)).titleFields.map
        (Option.map (fun f => f.id)) =
      [some 1, some 2, some 3, some 4, some 5, some 5] ∧
    ¬ List.Pairwise (fun a b => a ≠ b)
        ((addTitleField 5 (addTitleField 5 initialState)).titleFields.map
          (Option.map (fun f => f.id))) := by
  exact ⟨by decide, by decide⟩

/-- Claim C7, counterexample: the claim says that for EVERY id, remove on a
collection of size greater than 1 decreases the length by exactly 1.  On a
page with two questions (ids 1 and 7), removing the absent id 99 passes the
guard but filters out nothing: the length stays 2. -/
theorem claim_C7_counterexample :
    (removeQuestionFromPage 1 99
        { id := 1, title := "Untitled Page",
          questions := [some { id := 1, text := "", type := "yesno" },
                        some { id := 7, text := "", type := "yesno" }] }).map
      (fun p => p.questions.length) = some 2 ∧
    (removeQuestionFromPage 1 99
        { id := 1, title := "Untitled Page",
          questions := [some { id := 1, text := "", type := "yesno" },
                        some { id := 7, text := "", type := "yesno" }] }).map
      (fun p => p.questions.length) ≠ some 1 := by
  exact ⟨by decide, by decide⟩

/-- Claim C2: the pointer-drag reorder is a no-op when no drag is in progress
(captured source is null) or when source equals target (for the shared splice
body this also holds whenever the in-bounds source equals the target, which
covers the question-drop handler, whose only guard is the null check — every
real drop event's target index is in bounds); and for distinct in-bounds
source and target it permutes the collection (preserving the multiset of
elements, hence of ids) and moves the element originally at the source index
to the target index. -/
theorem claim_C2_drag_reorder (l : List (Option α)) (s t : Nat) :
    dragReorder l none t = l ∧
    dragReorder l (some s) s = l ∧
    (s < l.length → dragSplice l s s = l) ∧
    (s ≠ t → s < l.length → t < l.length →
      List.Perm (dragReorder l (some s) t) l ∧
      (dragReorder l (some s) t).get? t = l.get? s) := by
  refine ⟨rfl, by simp [dragReorder], fun h => dragSplice_self l s h, fun hne hs ht => ?_⟩
  have hred : dragReorder l (some s) t = dragSplice l s t := by
    simp [dragReorder, hne]
  rw [hred]
  exact ⟨dragSplice_perm l s t hs, dragSplice_get l s t hs ht⟩

/-- Witness for C2 at a concrete collection: dragging index 0 onto index 2 of
a three-element list permutes it and lands the dragged element at index 2,
and source-equals-target is a no-op. -/
theorem claim_C2_drag_reorder_witness :
    dragReorder [some 10, some 20, some 30] (some 1) 1 = [some 10, some 20, some 30] ∧
    List.Perm (dragReorder [some 10, some 20, some 30] (some 0) 2)
      [some 10, some 20, some 30] ∧
    (dragReorder [some 10, some 20, some 30] (some 0) 2).get? 2 = some (some 10) := by
  have h := claim_C2_drag_reorder (α := Nat) [some 10, some 20, some 30] 0 2
  have hmain := h.2.2.2 (by decide) (by decide) (by decide)
  refine ⟨(claim_C2_drag_reorder (α := Nat) [some 10, some 20, some 30] 1 1).2.1,
    hmain.1, ?_⟩
  rw [hmain.2]
  rfl

/-- Claim C4: for a valid index i with 1 ≤ i < length, a step move up at i
followed by a step move down at i - 1 restores the original collection;
at the boundary i = 0 the up move is a no-op. -/
theorem claim_C4_step_move_inverse (l : List (Option α)) (i : Nat) :
    (1 ≤ i → i < l.length → stepMove (stepMove l i .up) (i - 1) .down = l) ∧
    stepMove l 0 .up = l := by
  refine ⟨fun h1 hlen => ?_, stepMove_up_zero l⟩
  obtain ⟨l₁, a, b, l₂, hsplit, hlen1⟩ := exists_split_at2 l (i - 1) (by omega)
  subst hsplit
  have hi : i = l₁.length + 1 := by omega
  subst hi
  rw [stepMove_up_swap]
  have h0 : l₁.length + 1 - 1 = l₁.length := by omega
  rw [h0, stepMove_down_swap]

/-- Witness for C4 at a concrete collection: up at index 1 then down at index
0 restores the original three-element list. -/
theorem claim_C4_step_move_inverse_witness :
    stepMove (stepMove [some 10, some 20, some 30] 1 .up) 0 .down =
      [some 10, some 20, some 30] := by
  have h := (claim_C4_step_move_inverse (α := Nat) [some 10, some 20, some 30] 1).1
    (by decide) (by decide)
  simpa using h

/-- Claim C3: the step move (shared by `moveTitleField` and `moveQuestion`,
and — after the `findIndex` id lookup — by `movePage`) swaps the element at
the given valid index with its neighbour in the requested direction, leaving
the relative order of all other elements unchanged, and is a no-op at the
boundaries (index 0 moving up; the last index moving down).  The `movePage`
clauses assume the targeted page's id does not occur earlier in the list, so
that `findIndex` locates the targeted page itself. -/
theorem claim_C3_step_move (l : List (Option α)) (i : Nat)
    (l₁ : List (Option α)) (a b : Option α) (l₂ : List (Option α))
    (s : TemplateState) (p q : Page) (pre post : List Page) :
    stepMove l 0 .up = l ∧
    (l.length ≤ i + 1 → stepMove l i .down = l) ∧
    stepMove (l₁ ++ a :: b :: l₂) (l₁.length + 1) .up = l₁ ++ b :: a :: l₂ ∧
    stepMove (l₁ ++ a :: b :: l₂) l₁.length .down = l₁ ++ b :: a :: l₂ ∧
    (s.pages = pre ++ p :: q :: post → (∀ r ∈ pre, r.id ≠ q.id) → p.id ≠ q.id →
      movePage q.id .up s = { s with pages := pre ++ q :: p :: post }) ∧
    (s.pages = pre ++ p :: q :: post → (∀ r ∈ pre, r.id ≠ p.id) →
      movePage p.id .down s = { s with pages := pre ++ q :: p :: post }) ∧
    (s.pages = p :: post → movePage p.id .up s = s) ∧
    (s.pages = pre ++ [p] → (∀ r ∈ pre, r.id ≠ p.id) → movePage p.id .down s = s) := by
  refine ⟨stepMove_up_zero l, stepMove_down_last l i, stepMove_up_swap l₁ a b l₂,
    stepMove_down_swap l₁ a b l₂, fun hpg hpre hp => ?_, fun hpg hpre => ?_,
    fun hpg => ?_, fun hpg hpre => ?_⟩
  · have hfind : jsFindIndex (fun r => r.id == q.id) s.pages = some (pre.length + 1) := by
      rw [hpg]
      have hassoc : pre ++ p :: q :: post = (pre ++ [p]) ++ q :: post := by simp
      have hlen : (pre ++ [p]).length = pre.length + 1 := by simp
      rw [hassoc, ← hlen]
      apply jsFindIndex_append_cons
      · intro y hy
        rcases List.mem_append.mp hy with h1 | h2
        · exact beq_eq_false_iff_ne.mpr (hpre y h1)
        · have : y = p := by simpa using h2
          subst this
          exact beq_eq_false_iff_ne.mpr hp
      · simp
    simp only [movePage, hfind]
    rw [hpg, stepMoveAt_up_swap]
  · have hfind : jsFindIndex (fun r => r.id == p.id) s.pages = some pre.length := by
      rw [hpg]
      apply jsFindIndex_append_cons
      · intro y hy
        exact beq_eq_false_iff_ne.mpr (hpre y hy)
      · simp
    simp only [movePage, hfind]
    rw [hpg, stepMoveAt_down_swap]
  · have hfind : jsFindIndex (fun r => r.id == p.id) s.pages = some 0 := by
      rw [hpg]
      simp [jsFindIndex]
    simp only [movePage, hfind]
    rw [stepMoveAt_up_zero]
  · have hfind : jsFindIndex (fun r => r.id == p.id) s.pages = some pre.length := by
      rw [hpg]
      apply jsFindIndex_append_cons
      · intro y hy
        exact beq_eq_false_iff_ne.mpr (hpre y hy)
      · simp
    simp only [movePage, hfind]
    rw [stepMoveAt_down_last]
    rw [hpg]
    simp

/-- Witness for C3 at concrete collections: an interior up-swap on a
three-element list, the down boundary no-op, and a `movePage` boundary no-op
on the initial single-page state. -/
theorem claim_C3_step_move_witness :
    stepMove [some 10, some 20, some 30] 2 .up = [some 10, some 30, some 20] ∧
    stepMove [some 10, some 20, some 30] 2 .down = [some 10, some 20, some 30] ∧
    movePage 1 .up initialState = initialState := by
  have h := claim_C3_step_move (α := Nat) [some 10, some 20, some 30] 2
    [some 10] (some 20) (some 30) [] initialState
    { id := 1, title := "Untitled Page",
      questions := [some { id := 1, text := "", type := "yesno" }] }
    { id := 1, title := "Untitled Page",
      questions := [some { id := 1, text := "", type := "yesno" }] } [] []
  refine ⟨by simpa using h.2.2.1, h.2.1 (by decide), ?_⟩
  exact h.2.2.2.2.2.2.1 (by decide)

/-- Claim C6: remove deletes by id but is rejected when the collection would
fall below its minimum size — a page holding exactly one question rejects
`removeQuestion`, a template holding exactly one page rejects `removePage`,
while `removeTitleField` has no such guard and deletes the last remaining
title field. -/
theorem claim_C6_remove_guards (s : TemplateState) (pid qid rid : Nat) (f : Field) :
    ((∀ p ∈ s.pages, p.id = pid → p.questions.length = 1) →
      removeQuestion pid qid s = some s) ∧
    (s.pages.length = 1 → removePage rid s = s) ∧
    (s.titleFields = [some f] →
      removeTitleField f.id s = some { s with titleFields := [] }) := by
  refine ⟨fun hp => ?_, fun hlen => ?_, fun htf => ?_⟩
  · unfold removeQuestion
    rw [mapThrow_id]
    · rfl
    · intro p hmem
      unfold removeQuestionFromPage
      by_cases hid : p.id = pid
      · rw [if_pos hid, if_neg]
        have := hp p hmem hid
        omega
      · rw [if_neg hid]
  · unfold removePage
    rw [if_neg (by omega)]
  · unfold removeTitleField
    rw [htf]
    simp [filterLive]

/-- Witness for C6: on the initial state (one page, one question) the
question and page removals are no-ops, while removing the single title field
of a one-field state empties the title-field list. -/
theorem claim_C6_remove_guards_witness :
    removeQuestion 1 99 initialState = some initialState ∧
    removePage 1 initialState = initialState ∧
    removeTitleField 1
        { initialState with titleFields := [some { id := 1, label := "", type := "site" }] } =
      some { initialState with titleFields := ([] : List (Option Field)) } := by
  have h1 := claim_C6_remove_guards initialState 1 99 1
    { id := 1, label := "", type := "site" }
  have h2 := claim_C6_remove_guards
    { initialState with titleFields := [some { id := 1, label := "", type := "site" }] }
    1 99 1 { id := 1, label := "", type := "site" }
  exact ⟨h1.1 (by decide), h1.2.1 (by decide), h2.2.2 (by decide)⟩

/-- Claim C7, amended: remove on a question list or page list of size 1 is a
no-op; on a collection of size greater than 1 it deletes exactly the elements
carrying the targeted id, keeping all other elements in their original order
(a sublist of the original), and when the targeted id occurs exactly once the
length decreases by exactly 1.  (As stated, the claim fails for ids that do
not occur in the collection — see the counterexample.) -/
theorem claim_C7_remove_by_id (p : Page) (pid qid : Nat) (s : TemplateState) (rid : Nat)
    (qs : List Question) :
    (p.questions.length = 1 → removeQuestionFromPage pid qid p = some p) ∧
    (s.pages.length = 1 → removePage rid s = s) ∧
    (p.id = pid → p.questions = qs.map some → 1 < qs.length →
      ∃ qs2, removeQuestionFromPage pid qid p = some { p with questions := qs2.map some } ∧
        List.Sublist qs2 qs ∧
        (∀ q, q ∈ qs2 ↔ q ∈ qs ∧ q.id ≠ qid) ∧
        (qs.countP (fun q => q.id == qid) = 1 → qs2.length + 1 = qs.length)) ∧
    (1 < s.pages.length →
      ∃ ps2, removePage rid s = { s with pages := ps2 } ∧
        List.Sublist ps2 s.pages ∧
        (∀ r, r ∈ ps2 ↔ r ∈ s.pages ∧ r.id ≠ rid) ∧
        (s.pages.countP (fun r => r.id == rid) = 1 →
          ps2.length + 1 = s.pages.length)) := by
  refine ⟨fun hone => ?_, fun hone => ?_, fun hid hqs hlen => ?_, fun hlen => ?_⟩
  · unfold removeQuestionFromPage
    by_cases hid : p.id = pid
    · rw [if_pos hid, if_neg (by omega)]
    · rw [if_neg hid]
  · unfold removePage
    rw [if_neg (by omega)]
  · refine ⟨qs.filter (fun q => q.id != qid), ?_, List.filter_sublist qs, ?_, ?_⟩
    · unfold removeQuestionFromPage
      rw [if_pos hid, if_pos (by rw [hqs]; simpa using hlen)]
      rw [hqs, filterLive_map_some]
      rfl
    · intro q
      simp [List.mem_filter, bne_iff_ne]
    · intro hcount
      have hcnt := length_filter_not_countP qs (fun q => q.id == qid)
      have hconv : (fun q : Question => q.id != qid) =
          (fun q : Question => !(q.id == qid)) := rfl
      rw [hconv, hcount] at *
      omega
  · refine ⟨s.pages.filter (fun r => r.id != rid), ?_, List.filter_sublist s.pages, ?_, ?_⟩
    · unfold removePage
      rw [if_pos (by omega)]
    · intro r
      simp [List.mem_filter, bne_iff_ne]
    · intro hcount
      have hcnt := length_filter_not_countP s.pages (fun r => r.id == rid)
      have hconv : (fun r : Page => r.id != rid) =
          (fun r : Page => !(r.id == rid)) := rfl
      rw [hconv, hcount] at *
      omega

/-- Witness for C7 at concrete collections: removing the only question of a
one-question page is a no-op; removing id 7 from a two-question page deletes
exactly that question (shrinking the list from 2 to 1, since id 7 occurs
once); and removing the absent id 99 from the same page deletes exactly the
elements carrying id 99 — none — keeping the others in order. -/
theorem claim_C7_remove_by_id_witness :
    removeQuestionFromPage 1 5
        { id := 1, title := "",
          questions := [some { id := 1, text := "", type := "yesno" }] } =
      some { id := 1, title := "",
             questions := [some { id := 1, text := "", type := "yesno" }] } ∧
    (∃ qs2,
      removeQuestionFromPage 1 7
          { id := 1, title := "",
            questions := [some { id := 1, text := "", type := "yesno" },
                          some { id := 7, text := "", type := "yesno" }] } =
        some { id := 1, title := "", questions := qs2.map some } ∧
      List.Sublist qs2 [{ id := 1, text := "", type := "yesno" },
                        { id := 7, text := "", type := "yesno" }] ∧
      (∀ q, q ∈ qs2 ↔
        q ∈ [({ id := 1, text := "", type := "yesno" } : Question),
             { id := 7, text := "", type := "yesno" }] ∧ q.id ≠ 7) ∧
      (List.countP (fun q => q.id == 7)
          [({ id := 1, text := "", type := "yesno" } : Question),
           { id := 7, text := "", type := "yesno" }] = 1 →
        qs2.length + 1 = 2)) ∧
    (∃ qs2,
      removeQuestionFromPage 1 99
          { id := 1, title := "",
            questions := [some { id := 1, text := "", type := "yesno" },
                          some { id := 7, text := "", type := "yesno" }] } =
        some { id := 1, title := "", questions := qs2.map some } ∧
      List.Sublist qs2 [{ id := 1, text := "", type := "yesno" },
                        { id := 7, text := "", type := "yesno" }] ∧
      (∀ q, q ∈ qs2 ↔
        q ∈ [({ id := 1, text := "", type := "yesno" } : Question),
             { id := 7, text := "", type := "yesno" }] ∧ q.id ≠ 99) ∧
      (List.countP (fun q => q.id == 99)
          [({ id := 1, text := "", type := "yesno" } : Question),
           { id := 7, text := "", type := "yesno" }] = 1 →
        qs2.length + 1 = 2)) := by
  have h1 := claim_C7_remove_by_id
    { id := 1, title := "", questions := [some { id := 1, text := "", type := "yesno" }] }
    1 5 initialState 1 []
  have h2 := claim_C7_remove_by_id
    { id := 1, title := "",
      questions := [some { id := 1, text := "", type := "yesno" },
                    some { id := 7, text := "", type := "yesno" }] }
    1 7 initialState 1
    [{ id := 1, text := "", type := "yesno" }, { id := 7, text := "", type := "yesno" }]
  have h3 := claim_C7_remove_by_id
    { id := 1, title := "",
      questions := [some { id := 1, text := "", type := "yesno" },
                    some { id := 7, text := "", type := "yesno" }] }
    1 99 initialState 1
    [{ id := 1, text := "", type := "yesno" }, { id := 7, text := "", type := "yesno" }]
  exact ⟨h1.1 (by decide), h2.2.2.1 (by decide) rfl (by decide),
    h3.2.2.1 (by decide) rfl (by decide)⟩

/-! Frame-effect machinery for C10. -/

theorem get?_map_eq (g : β → γ) (l : List β) (i : Nat) :
    (l.map g).get? i = (l.get? i).map g := by
  induction l generalizing i with
  | nil => cases i <;> rfl
  | cons x xs ih => cases i <;> simp [ih]

/-- Frame of the question-scoped operations: the template metadata and the
title-field list are untouched, the page count is unchanged, and every page
whose id differs from the addressed page id is unchanged in place. -/
def framePreserved (s r : TemplateState) (pid : Nat) : Prop :=
  r.templateTitle = s.templateTitle ∧
  r.templateDescription = s.templateDescription ∧
  r.templateImage = s.templateImage ∧
  r.titleFields = s.titleFields ∧
  r.pages.length = s.pages.length ∧
  ∀ i pg, s.pages.get? i = some pg → pg.id ≠ pid → r.pages.get? i = some pg

theorem framePreserved_refl (s : TemplateState) (pid : Nat) : framePreserved s s pid :=
  ⟨rfl, rfl, rfl, rfl, rfl, fun _ _ h _ => h⟩

theorem framePreserved_of_map (s : TemplateState) (pid : Nat) (g : Page → Page)
    (r : TemplateState) (hg : ∀ p, p.id ≠ pid → g p = p)
    (h1 : r.templateTitle = s.templateTitle)
    (h2 : r.templateDescription = s.templateDescription)
    (h3 : r.templateImage = s.templateImage)
    (h4 : r.titleFields = s.titleFields)
    (h5 : r.pages = s.pages.map g) : framePreserved s r pid := by
  refine ⟨h1, h2, h3, h4, by rw [h5]; simp, fun i pg hget hne => ?_⟩
  rw [h5, get?_map_eq, hget]
  simp [hg pg hne]

theorem optMap_pages_eq_some (f : Page → Option Page) (s s' : TemplateState)
    (h : (mapThrow f s.pages).map (fun pgs => { s with pages := pgs }) = some s') :
    ∃ pgs, mapThrow f s.pages = some pgs ∧ s' = { s with pages := pgs } := by
  cases hm : mapThrow f s.pages with
  | none => rw [hm] at h; exact absurd h (by simp)
  | some pgs =>
    rw [hm] at h
    exact ⟨pgs, rfl, by simpa using h.symm⟩

theorem framePreserved_of_mapThrow (s : TemplateState) (pid : Nat) (f : Page → Option Page)
    (s' : TemplateState) (hf : ∀ p, p.id ≠ pid → f p = some p)
    (h : (mapThrow f s.pages).map (fun pgs => { s with pages := pgs }) = some s') :
    framePreserved s s' pid := by
  obtain ⟨pgs, hm, hs'⟩ := optMap_pages_eq_some f s s' h
  obtain ⟨hlen, hpt⟩ := mapThrow_eq_some f s.pages pgs hm
  subst hs'
  refine ⟨rfl, rfl, rfl, rfl, by simpa using hlen, fun i pg hget hne => ?_⟩
  obtain ⟨y, hy, hget'⟩ := hpt i pg hget
  rw [hf pg hne] at hy
  obtain rfl : pg = y := by simpa using hy
  exact hget'

/-- Claim C10: every question-scoped operation addressed to page id `pid`
(`addQuestion`, `moveQuestion`, `handleQuestionDrop`, and — whenever they
commit — `removeQuestion` and `handleQuestionChange`) leaves the template
title, description, image and title-field list unchanged, keeps the page
count, and leaves every page whose id differs from `pid` unchanged in place. -/
theorem claim_C10_question_ops_frame (s : TemplateState) (pid : Nat) :
    (∀ now, framePreserved s (addQuestion pid now s) pid) ∧
    (∀ idx dir, framePreserved s (moveQuestion pid idx dir s) pid) ∧
    (∀ idx, framePreserved s (handleQuestionDrop pid idx s) pid) ∧
    (∀ qid s', removeQuestion pid qid s = some s' → framePreserved s s' pid) ∧
    (∀ qid key value s', handleQuestionChange pid qid key value s = some s' →
      framePreserved s s' pid) := by
  refine ⟨fun now => ?_, fun idx dir => ?_, fun idx => ?_, fun qid s' h => ?_,
    fun qid key value s' h => ?_⟩
  · exact framePreserved_of_map s pid _ _ (fun p hne => if_neg hne) rfl rfl rfl rfl rfl
  · exact framePreserved_of_map s pid _ _ (fun p hne => if_neg hne) rfl rfl rfl rfl rfl
  · unfold handleQuestionDrop
    split
    · exact framePreserved_of_map s pid _ _ (fun p hne => if_neg hne) rfl rfl rfl rfl rfl
    · exact framePreserved_refl s pid
  · exact framePreserved_of_mapThrow s pid _ s'
      (fun p hne => by unfold removeQuestionFromPage; rw [if_neg hne]) h
  · exact framePreserved_of_mapThrow s pid _ s'
      (fun p hne => by simp [hne]) h

/-- Witness for C10: adding a question to page 100 of a two-page state, and a
committing `removeQuestion` on page 100, both preserve page 1 and the
template metadata. -/
theorem claim_C10_question_ops_frame_witness :
    framePreserved initialState (addQuestion 5 9 initialState) 5 ∧
    framePreserved (addQuestion 100 7 (addPage 100 100 initialState))
      (addPage 100 100 initialState) 100 := by
  refine ⟨(claim_C10_question_ops_frame initialState 5).1 9, ?_⟩
  exact (claim_C10_question_ops_frame
      (addQuestion 100 7 (addPage 100 100 initialState)) 100).2.2.2.1 7
    (addPage 100 100 initialState) (by decide)

end Streamlineer
